import Mathlib

/-!
Shallow embedding of the code-forge workflow orchestration core:
the retry-protected remote-call wrapper (`Orchestrator.executeWithRetry`,
`Orchestrator.isRetryableError`), the workflow token tracker
(`WorkflowTokenTracker`), the developer/reviewer feedback loop and task
orchestration (`WorkflowManager.devReviewFeedbackLoop`,
`WorkflowManager.executeTaskWithReviewLoop`, `WorkflowManager.orchestrateWorkflow`),
and the consensus builder (`ConsensusBuilder.buildConsensus`).

JavaScript numbers are modelled as `Nat` (token counts, lengths) and `ℚ`
(confidences and scores); strings as Lean `String`; thrown exceptions as
`Except`; JS `Map`s (which preserve insertion order) as association lists.
-/

namespace CodeForge

/-! ## String helpers

JS `String.prototype.includes`, `substring(0, n)` and `toLowerCase`,
modelled on the character list underlying a `String`. -/

/-- Is `p` a prefix of `l` (char-by-char)? -/
def listIsPre : List Char → List Char → Bool
  | [], _ => true
  | _ :: _, [] => false
  | a :: as, b :: bs => a == b && listIsPre as bs

/-- Does `l` contain `sub` as a contiguous sublist? (JS `includes`;
the empty string is contained in everything.) -/
def listHasSub : List Char → List Char → Bool
  | [], sub => sub.isEmpty
  | c :: t, sub => listIsPre sub (c :: t) || listHasSub t sub

/-- JS `s.includes(sub)`. -/
def includesStr (s sub : String) : Bool :=
  listHasSub s.data sub.data

/-- JS `s.substring(0, n)`. -/
def strTake (s : String) (n : Nat) : String :=
  ⟨s.data.take n⟩

/-- JS `s.toLowerCase()` (ASCII, as all strings in scope are ASCII). -/
def strToLower (s : String) : String :=
  ⟨s.data.map Char.toLower⟩

/-! ## Errors (src/src/types/index.ts)

The error classes relevant to retry classification. A `ModelError`
constructed with `(modelName, message)` has runtime `message`
`"[modelName] message"`; likewise `ToolError`. Any other thrown value is
modelled by `genericError`. -/

/-- Thrown JS error values, as classified by `Orchestrator.isRetryableError`. -/
inductive JsError where
  | modelError (modelName : String) (msg : String)
  | toolError (toolName : String) (msg : String)
  | genericError (msg : String)
deriving DecidableEq

/-- The runtime `message` property of the error (the `CodeReviewError`
constructor prepends `"[name] "` for `ModelError` and `ToolError`). -/
def JsError.message : JsError → String
  | .modelError m msg => "[" ++ m ++ "] " ++ msg
  | .toolError t msg => "[" ++ t ++ "] " ++ msg
  | .genericError msg => msg

/-- `Orchestrator.isRetryableError` (src/unnamed/part_008 lines 150-163):
only a `ModelError` whose lowercased message contains a rate-limit,
timeout, or 429 marker is retryable; `ToolError` and anything else is not. -/
def isRetryableError (e : JsError) : Bool :=
  match e with
  | .modelError _ _ =>
    let message := strToLower e.message
    includesStr message "rate limit" || includesStr message "timeout" ||
      includesStr message "429"
  | .toolError _ _ => false
  | .genericError _ => false

/-- Modelled from the spec: "the error message contains a rate-limit,
timeout, or HTTP-429 marker" — the spec-side classification predicate,
used to compare the spec's wording against `isRetryableError`. -/
def specRetryMarker (s : String) : Bool :=
  includesStr (strToLower s) "rate limit" || includesStr (strToLower s) "timeout" ||
    includesStr (strToLower s) "429"

/-- Is the error a `ModelError`? -/
def JsError.isModelErr : JsError → Bool
  | .modelError _ _ => true
  | _ => false

/-! ## Retry orchestrator (src/unnamed/part_008, `Orchestrator.executeWithRetry`)

The agent is modelled as a function from the attempt number (1-based, as in
the source's `for` loop) to the outcome of `this.model.analyze(request)`.
The backoff sleep is a pure suspension with no observable effect and is
not modelled. We additionally count the number of `analyze` calls made. -/

/-- Result of a retry-wrapped execution: the returned/thrown outcome and
the number of `analyze` calls performed. -/
structure RetryRun (α : Type) where
  result : Except JsError α
  calls : Nat

instance {ε α : Type} [DecidableEq ε] [DecidableEq α] : DecidableEq (Except ε α) := fun a b =>
  match a, b with
  | .error e, .error f =>
    if h : e = f then .isTrue (congrArg Except.error h)
    else .isFalse (fun hh => h (Except.error.inj hh))
  | .error _, .ok _ => .isFalse (fun hh => Except.noConfusion hh)
  | .ok _, .error _ => .isFalse (fun hh => Except.noConfusion hh)
  | .ok v, .ok w =>
    if h : v = w then .isTrue (congrArg Except.ok h)
    else .isFalse (fun hh => h (Except.ok.inj hh))

instance {α : Type} [DecidableEq α] : DecidableEq (RetryRun α) := by
  intro a b
  cases a
  cases b
  rw [RetryRun.mk.injEq]
  exact inferInstance

/-- The body of `executeWithRetry`'s `for` loop. `remaining` is the number
of loop iterations still permitted (`maxRetries - attempt + 1`); the
fall-through case models the `throw lastError || new ModelError(...)`
after the loop. -/
def executeWithRetryAux (modelName : String) (agent : Nat → Except JsError α)
    (maxRetries : Nat) : Nat → Nat → Option JsError → RetryRun α
  | 0, _, lastError =>
    ⟨.error (lastError.getD (.modelError modelName "Unknown error in retry loop")), 0⟩
  | remaining + 1, attempt, _ =>
    match agent attempt with
    | .ok v => ⟨.ok v, 1⟩
    | .error e =>
      if !isRetryableError e || attempt == maxRetries then
        ⟨.error e, 1⟩
      else
        let rest := executeWithRetryAux modelName agent maxRetries remaining
          (attempt + 1) (some e)
        ⟨rest.result, rest.calls + 1⟩

/-- `Orchestrator.executeWithRetry` (src/unnamed/part_008 lines 123-145). -/
def executeWithRetry (modelName : String) (maxRetries : Nat)
    (agent : Nat → Except JsError α) : RetryRun α :=
  executeWithRetryAux modelName agent maxRetries maxRetries 1 none

end CodeForge

namespace CodeForge

/-- A retryable `ModelError` used in concrete runs. -/
def rateLimitErr : JsError := .modelError "deepseek-chat" "Rate limit exceeded"

/-- A second retryable `ModelError`. -/
def timeoutErr : JsError := .modelError "deepseek-chat" "Request timeout after 30000ms"

/-- A non-retryable error (generic authentication failure). -/
def fatalErr : JsError := .genericError "invalid api key"

/-! ## Workflow data model (src/src/types/index.ts)

Fields not read or written by the orchestration logic under proof
(uuid ids of feedback entries, reviewer ids, timestamps, issue lists,
free-text descriptions) are omitted; every field the feedback loop, the
orchestrator or the token tracker touches is present. -/

/-- `TaskStatus` (src/src/types/index.ts lines 383-389). -/
inductive TaskStatus where
  | pending
  | in_development
  | in_review
  | needs_revision
  | approved
  | completed
deriving DecidableEq

/-- A review decision (`'approve' | 'reject'`). -/
inductive Decision where
  | approve
  | reject
deriving DecidableEq

/-- `ReviewFeedback` (decision and token count; the id/reviewer/timestamp
strings and the issue list are not read by the logic under proof). -/
structure ReviewFeedback where
  decision : Decision
  tokensUsed : Nat
deriving DecidableEq

/-- `TaskTokenUsage` (src/src/types/index.ts lines 418-423). -/
structure TaskTokenUsage where
  architecture : Nat
  development : List Nat
  review : List Nat
  total : Nat
deriving DecidableEq

/-- `Task` (src/src/types/index.ts lines 438-470); the implementation
artifact is abstracted to its presence. -/
structure Task where
  id : String
  status : TaskStatus
  reviewHistory : List ReviewFeedback
  currentReview : Option ReviewFeedback
  tokenUsage : TaskTokenUsage
  iterationCount : Nat
  maxIterations : Nat
  hasImplementation : Bool
deriving DecidableEq

/-- `AgentRole`. -/
inductive AgentRole where
  | architect
  | developer
  | reviewer
deriving DecidableEq

/-! ## Token tracker (src/unnamed/part_009, `WorkflowTokenTracker`) -/

/-- Per-role `{input, output}` pricing (per 1k tokens). -/
structure ModelPricing where
  input : ℚ
  output : ℚ
deriving DecidableEq

/-- `metrics.byPhase`. -/
structure PhaseTotals where
  architecture : Nat
  development : Nat
  review : Nat
  total : Nat
deriving DecidableEq

/-- `metrics.byAgent`. -/
structure RoleTotals where
  architect : Nat
  developer : Nat
  reviewer : Nat
deriving DecidableEq

/-- `metrics.estimatedCost`. -/
structure CostTotals where
  architect : ℚ
  developer : ℚ
  reviewer : ℚ
  total : ℚ
deriving DecidableEq

/-- The `WorkflowTokenTracker` state: metrics plus the per-role pricing
map built in the constructor (`costCalculators`, keyed by exactly the
three roles). `byTask` is a JS `Map` keyed by task id, modelled as an
insertion-ordered association list. -/
structure Tracker where
  byAgent : RoleTotals
  byTask : List (String × TaskTokenUsage)
  byPhase : PhaseTotals
  estimatedCost : CostTotals
  architectPricing : ModelPricing
  developerPricing : ModelPricing
  reviewerPricing : ModelPricing
deriving DecidableEq

/-- A freshly constructed tracker (all metrics zero, pricing from the
three agents' models). -/
def freshTracker (pa pd pr : ModelPricing) : Tracker :=
  { byAgent := ⟨0, 0, 0⟩
    byTask := []
    byPhase := ⟨0, 0, 0, 0⟩
    estimatedCost := ⟨0, 0, 0, 0⟩
    architectPricing := pa
    developerPricing := pd
    reviewerPricing := pr }

/-- First entry of the association list with the given key (JS `Map.get`). -/
def getTaskMetrics (m : List (String × TaskTokenUsage)) (k : String) :
    Option TaskTokenUsage :=
  match m with
  | [] => none
  | (k', v) :: rest => if k' = k then some v else getTaskMetrics rest k

/-- JS `Map.set`: replace the value at an existing key in place, or append
a new entry. -/
def setTaskMetrics (m : List (String × TaskTokenUsage)) (k : String)
    (v : TaskTokenUsage) : List (String × TaskTokenUsage) :=
  match m with
  | [] => [(k, v)]
  | (k', v') :: rest =>
    if k' = k then (k', v) :: rest else (k', v') :: setTaskMetrics rest k v

/-- Per-role accessor into the tracker's role totals. -/
def RoleTotals.get (r : RoleTotals) : AgentRole → Nat
  | .architect => r.architect
  | .developer => r.developer
  | .reviewer => r.reviewer

/-- Add tokens to one role's total. -/
def RoleTotals.add (r : RoleTotals) (role : AgentRole) (tokens : Nat) : RoleTotals :=
  match role with
  | .architect => { r with architect := r.architect + tokens }
  | .developer => { r with developer := r.developer + tokens }
  | .reviewer => { r with reviewer := r.reviewer + tokens }

/-- The pricing the constructor stored for a role. -/
def Tracker.pricingFor (tr : Tracker) : AgentRole → ModelPricing
  | .architect => tr.architectPricing
  | .developer => tr.developerPricing
  | .reviewer => tr.reviewerPricing

/-- `calculateCost`: `(tokens / 1000) * (input + output) / 2`. -/
def calculateCost (tokens : Nat) (pricing : ModelPricing) : ℚ :=
  ((tokens : ℚ) / 1000) * ((pricing.input + pricing.output) / 2)

/-- `updateCostEstimate`. -/
def updateCostEstimate (tr : Tracker) (role : AgentRole) (tokens : Nat) : Tracker :=
  let cost := calculateCost tokens (tr.pricingFor role)
  let ec := tr.estimatedCost
  let ec :=
    match role with
    | .architect => { ec with architect := ec.architect + cost }
    | .developer => { ec with developer := ec.developer + cost }
    | .reviewer => { ec with reviewer := ec.reviewer + cost }
  { tr with estimatedCost := { ec with total := ec.total + cost } }

/-- `WorkflowTokenTracker.recordArchitecture` (src/unnamed/part_009 lines
39-44): updates the phase, agent and cost aggregates only — it takes no
task and touches no per-task metrics. -/
def recordArchitecture (tr : Tracker) (role : AgentRole) (tokens : Nat) : Tracker :=
  let tr := { tr with
    byPhase := { tr.byPhase with
      architecture := tr.byPhase.architecture + tokens
      total := tr.byPhase.total + tokens }
    byAgent := tr.byAgent.add role tokens }
  updateCostEstimate tr role tokens

/-- `updateTaskTotal` (src/unnamed/part_009 lines 138-147): recomputes the
task's total from the tracker's own per-task metrics and writes it both
there and onto the task object. -/
def updateTaskTotal (tr : Tracker) (t : Task) : Tracker × Task :=
  match getTaskMetrics tr.byTask t.id with
  | none => (tr, t)
  | some tm =>
    let total := tm.architecture + tm.development.sum + tm.review.sum
    let tm := { tm with total := total }
    ({ tr with byTask := setTaskMetrics tr.byTask t.id tm },
     { t with tokenUsage := { t.tokenUsage with total := total } })

/-- `WorkflowTokenTracker.recordDevelopment` (src/unnamed/part_009 lines
49-72): pushes the count both into the tracker's per-task metrics and onto
`task.tokenUsage.development`, updates the aggregates, then recomputes the
task total and the cost estimate. -/
def recordDevelopment (tr : Tracker) (t : Task) (role : AgentRole) (tokens : Nat) :
    Tracker × Task :=
  let tm := (getTaskMetrics tr.byTask t.id).getD ⟨0, [], [], 0⟩
  let tm := { tm with development := tm.development ++ [tokens] }
  let t := { t with tokenUsage :=
    { t.tokenUsage with development := t.tokenUsage.development ++ [tokens] } }
  let tr := { tr with
    byTask := setTaskMetrics tr.byTask t.id tm
    byPhase := { tr.byPhase with
      development := tr.byPhase.development + tokens
      total := tr.byPhase.total + tokens }
    byAgent := tr.byAgent.add role tokens }
  let p := updateTaskTotal tr t
  (updateCostEstimate p.1 role tokens, p.2)

/-- `WorkflowTokenTracker.recordReview` (src/unnamed/part_009 lines 77-100). -/
def recordReview (tr : Tracker) (t : Task) (role : AgentRole) (tokens : Nat) :
    Tracker × Task :=
  let tm := (getTaskMetrics tr.byTask t.id).getD ⟨0, [], [], 0⟩
  let tm := { tm with review := tm.review ++ [tokens] }
  let t := { t with tokenUsage :=
    { t.tokenUsage with review := t.tokenUsage.review ++ [tokens] } }
  let tr := { tr with
    byTask := setTaskMetrics tr.byTask t.id tm
    byPhase := { tr.byPhase with
      review := tr.byPhase.review + tokens
      total := tr.byPhase.total + tokens }
    byAgent := tr.byAgent.add role tokens }
  let p := updateTaskTotal tr t
  (updateCostEstimate p.1 role tokens, p.2)

/-! ## Developer/reviewer feedback loop (src/src/core/workflow-manager.ts)

One loop iteration calls the developer agent (`developTask`) and then the
reviewer agent (`reviewTask`). Their outcomes are modelled as a script
indexed by the iteration's call number (0-based count of iterations
performed so far): each entry carries the outcome of the developer call
(token count of the produced implementation, or a thrown error) and of
the reviewer call (decision and token count, or a thrown error).
Console output, timestamps and context-manager bookkeeping (create /
setCurrentTask / clearContext, which the loop always pairs around each
agent turn) have no effect on the state under proof and are omitted. -/

/-- Outcomes of the developer and reviewer calls of one loop iteration. -/
structure IterationBehavior where
  dev : Except JsError Nat
  review : Except JsError (Decision × Nat)

/-- The body of `devReviewFeedbackLoop`'s `while` loop. `fuel` equals
`maxIterations - iterationCount` (the loop guard `iterationCount <
maxIterations` is re-checked each round; on `reject` the count increments,
so the difference is the number of rounds still permitted). `i` counts the
iterations performed, indexing the script. -/
def devReviewLoopAux (script : Nat → IterationBehavior) :
    Nat → Nat → Tracker → Task → Except JsError (Tracker × Task)
  | 0, _, tr, t => .ok (tr, t)
  | fuel + 1, i, tr, t =>
    match (script i).dev with
    | .error e => .error e
    | .ok devTok =>
      -- task.implementation = devResult.implementation;
      -- task.tokenUsage.development.push(devResult.tokensUsed);
      let t := { t with
        hasImplementation := true
        tokenUsage := { t.tokenUsage with
          development := t.tokenUsage.development ++ [devTok] } }
      let p := recordDevelopment tr t .developer devTok
      let tr := p.1
      let t := p.2
      match (script i).review with
      | .error e => .error e
      | .ok (dec, revTok) =>
        -- task.reviewHistory.push(...); task.currentReview = ...;
        -- task.tokenUsage.review.push(reviewResult.tokensUsed);
        let fb : ReviewFeedback := ⟨dec, revTok⟩
        let t := { t with
          reviewHistory := t.reviewHistory ++ [fb]
          currentReview := some fb
          tokenUsage := { t.tokenUsage with
            review := t.tokenUsage.review ++ [revTok] } }
        let q := recordReview tr t .reviewer revTok
        let tr := q.1
        let t := q.2
        match dec with
        | .approve => .ok (tr, { t with status := .approved })
        | .reject =>
          devReviewLoopAux script fuel (i + 1) tr
            { t with status := .needs_revision, iterationCount := t.iterationCount + 1 }

/-- `WorkflowManager.devReviewFeedbackLoop` (src/src/core/workflow-manager.ts
lines 471-530). -/
def devReviewFeedbackLoop (script : Nat → IterationBehavior) (tr : Tracker)
    (t : Task) : Except JsError (Tracker × Task) :=
  devReviewLoopAux script (t.maxIterations - t.iterationCount) 0 tr t

/-- `getUserApprovalInteractive` (src/src/core/workflow-manager.ts lines
646-670): auto-approves exactly when the current review's decision is
`approve`. -/
def userApprovalAutoApprove (t : Task) : Bool :=
  match t.currentReview with
  | some fb => decide (fb.decision = Decision.approve)
  | none => false

/-- `WorkflowManager.executeTaskWithReviewLoop` (src/src/core/workflow-manager.ts
lines 538-564). `gitManager.commitTask` and the architect notification do
not touch the task or tracker state. -/
def executeTaskWithReviewLoop (skipApprovalAndCommit : Bool)
    (script : Nat → IterationBehavior) (tr : Tracker) (t : Task) :
    Except JsError (Tracker × Task) :=
  match devReviewFeedbackLoop script tr t with
  | .error e => .error e
  | .ok (tr, t) =>
    if t.status = .approved then
      if skipApprovalAndCommit then
        .ok (tr, { t with status := .completed })
      else
        if userApprovalAutoApprove t then .ok (tr, { t with status := .completed })
        else .ok (tr, t)
    else .ok (tr, t)

/-- The per-task `for` loop of `WorkflowManager.orchestrateWorkflow`
(src/src/core/workflow-manager.ts lines 180-216): for each task in order,
run the feedback loop; on `approved` mark the task `completed` (the
architect notification and the optional git commit do not touch this
state), otherwise mark it `needs_revision`. A thrown error is not caught
anywhere in `orchestrateWorkflow`. `scripts` gives the iteration script of
the task at each index. -/
def orchestrateWorkflowTasks (scripts : Nat → Nat → IterationBehavior) :
    Nat → Tracker → List Task → Except JsError (Tracker × List Task)
  | _, tr, [] => .ok (tr, [])
  | idx, tr, t :: rest =>
    match devReviewFeedbackLoop (scripts idx) tr t with
    | .error e => .error e
    | .ok (tr, t) =>
      match orchestrateWorkflowTasks scripts (idx + 1) tr rest with
      | .error e => .error e
      | .ok (tr2, rest2) =>
        .ok (tr2,
          (if t.status = .approved then { t with status := .completed }
           else { t with status := .needs_revision }) :: rest2)

/-! ## Consensus builder (src/src/cli/output-formatter.ts, `ConsensusBuilder`)

The findings pipeline: flatten the responses' findings tagged with their
source model, group by id / similarity, and merge each group. The report's
aggregate metrics (`overallAgreement`, `disagreementHotspots`,
`modelAlignmentScore`) and the execution summary are not referenced by any
claim and are omitted. -/

/-- `Finding` (src/src/types/index.ts lines 59-70); the fields the
consensus pipeline reads. `type` and `severity` are kept as strings. -/
structure Finding where
  id : String
  ftype : String
  severity : String
  description : String
  location : Option String
  suggestion : Option String
  confidence : ℚ
deriving DecidableEq

/-- A finding tagged with its source model
(`Finding & { sourceModel: ModelName }`). -/
structure SFinding extends Finding where
  sourceModel : String
deriving DecidableEq

/-- The slice of `UnifiedResponse` the consensus pipeline reads. -/
structure AgentResponse where
  modelName : String
  findings : List Finding
deriving DecidableEq

/-- `consensusLevel` values. -/
inductive ConsensusLevel where
  | unanimous
  | majority
  | minority
deriving DecidableEq

/-- `MergedFinding` (src/src/types/index.ts lines 173-178): the base
finding's display fields plus provenance, merged confidence, consensus
level and agreement score. `confidences` is a JS object keyed by model
name (insertion-ordered, last write wins), modelled as an association
list. -/
structure MergedFinding where
  id : String
  ftype : String
  severity : String
  description : String
  location : Option String
  suggestion : Option String
  confidence : ℚ
  sources : List String
  confidences : List (String × ℚ)
  consensusLevel : ConsensusLevel
  agreementScore : ℚ
deriving DecidableEq

/-- `ConsensusBuildError` (`'No responses to build consensus from'`). -/
inductive ConsensusError where
  | noResponses
deriving DecidableEq

/-- `collectAllFindings`: flatten responses into source-tagged findings. -/
def collectAllFindings (responses : List AgentResponse) : List SFinding :=
  responses.flatMap fun r => r.findings.map fun f => ⟨f, r.modelName⟩

/-- `findingsSimilar` (src/src/cli/output-formatter.ts lines 557-567):
same location and type, and one lowercased description contains the first
20 characters of the other. -/
def findingsSimilar (f1 f2 : Finding) : Bool :=
  if f1.location = f2.location ∧ f1.ftype = f2.ftype then
    let desc1 := strToLower f1.description
    let desc2 := strToLower f2.description
    includesStr desc1 (strTake desc2 20) || includesStr desc2 (strTake desc1 20)
  else
    false

/-- Does the insertion-ordered group map have an entry for this key?
(JS `Map.has`.) -/
def hasGroupKey (gs : List (String × List SFinding)) (k : String) : Bool :=
  match gs with
  | [] => false
  | (k', _) :: rest => k' = k || hasGroupKey rest k

/-- `groups.get(key)!.push(finding)`: append to the entry with this key. -/
def pushToGroupKey (gs : List (String × List SFinding)) (k : String)
    (f : SFinding) : List (String × List SFinding) :=
  match gs with
  | [] => []
  | (k', g) :: rest =>
    if k' = k then (k', g ++ [f]) :: rest else (k', g) :: pushToGroupKey rest k f

/-- The fallback scan: walk the groups in insertion order and push the
finding into the first group whose first member is similar to it. -/
def pushToFirstSimilar (gs : List (String × List SFinding)) (f : SFinding) :
    Option (List (String × List SFinding)) :=
  match gs with
  | [] => none
  | (k', g) :: rest =>
    match g with
    | [] => (pushToFirstSimilar rest f).map ((k', g) :: ·)
    | g0 :: _ =>
      if findingsSimilar f.toFinding g0.toFinding then some ((k', g ++ [f]) :: rest)
      else (pushToFirstSimilar rest f).map ((k', g) :: ·)

/-- One step of `groupFindingsBySimilarity`'s `for` loop: exact id match
is tried first, then the similarity scan, then a fresh group keyed by the
finding's id. -/
def insertFinding (gs : List (String × List SFinding)) (f : SFinding) :
    List (String × List SFinding) :=
  if hasGroupKey gs f.id then pushToGroupKey gs f.id f
  else
    match pushToFirstSimilar gs f with
    | some gs => gs
    | none => gs ++ [(f.id, [f])]

/-- `groupFindingsBySimilarity` (src/src/cli/output-formatter.ts lines
518-552): fold the findings into an insertion-ordered map of groups. -/
def groupFindingsBySimilarity (findings : List SFinding) :
    List (String × List SFinding) :=
  findings.foldl insertFinding []

/-- First-occurrence deduplication (JS `Array.from(new Set(...))`). -/
def dedupFirstAux : List String → List String → List String
  | [], _ => []
  | x :: xs, seen => if x ∈ seen then dedupFirstAux xs seen else x :: dedupFirstAux xs (x :: seen)

/-- First-occurrence deduplication of a list of strings. -/
def dedupFirst (l : List String) : List String :=
  dedupFirstAux l []

/-- Build the per-source confidence record: later entries for the same
source overwrite the value but keep the key's position. -/
def upsertConfidence (m : List (String × ℚ)) (k : String) (v : ℚ) :
    List (String × ℚ) :=
  match m with
  | [] => [(k, v)]
  | (k', v') :: rest =>
    if k' = k then (k', v) :: rest else (k', v') :: upsertConfidence rest k v

/-- `determineConsensusLevel` (src/src/cli/output-formatter.ts lines
612-625): the distinct-source percentage of the group decides the level. -/
def determineConsensusLevel (sourceCount totalCount : Nat) : ConsensusLevel :=
  let percentage : ℚ := ((sourceCount : ℚ) / (totalCount : ℚ)) * 100
  if percentage = 100 then .unanimous
  else if percentage ≥ 66 then .majority
  else .minority

/-- Integer square root by downward search: the greatest `k ≤ bound` with
`k * k ≤ n` (structural recursion, so it evaluates in proofs). -/
def natSqrtAux (n : Nat) : Nat → Nat
  | 0 => 0
  | k + 1 => if (k + 1) * (k + 1) ≤ n then k + 1 else natSqrtAux n k

/-- Integer square root: the greatest `k` with `k * k ≤ n`. -/
def natSqrt (n : Nat) : Nat :=
  natSqrtAux n n

/-- Square root on ℚ via the integer square root of numerator and
denominator. This is exact precisely when the reduced numerator and
denominator are perfect squares — which holds at every input arising in
this development (a variance of the form `(d/2)^2`, or `0`), where it
agrees with the code's `Math.sqrt`. -/
def ratSqrt (q : ℚ) : ℚ :=
  (natSqrt q.num.toNat : ℚ) / (natSqrt q.den : ℚ)

/-- The non-singleton branch of `calculateAgreementScore`:
`max(0, 1 - 2 * stddev(confidences))`. -/
def calcScoreMulti (group : List SFinding) : ℚ :=
  let confidences := group.map (·.confidence)
  let mean := confidences.sum / (confidences.length : ℚ)
  let variance :=
    (confidences.map fun c => (c - mean) * (c - mean)).sum / (confidences.length : ℚ)
  let stdDev := ratSqrt variance
  max 0 (1 - stdDev * 2)

/-- `calculateAgreementScore` (src/src/cli/output-formatter.ts lines
630-646): a singleton group scores its own confidence; otherwise
`max(0, 1 - 2 * stddev(confidences))`. The `[]` case is the source's else
branch too; it is unreachable (`mergeFindingGroup` rejects empty groups
before calling). -/
def calculateAgreementScore : List SFinding → ℚ
  | [] => calcScoreMulti []
  | [f] => f.confidence
  | f1 :: f2 :: rest => calcScoreMulti (f1 :: f2 :: rest)

/-- `mergeFindingGroup` (src/src/cli/output-formatter.ts lines 572-607).
The first member supplies the base display fields; confidence is the
arithmetic mean. `none` models the `ConsensusBuildError` thrown on an
empty group (which the grouping step never produces). -/
def mergeFindingGroup (group : List SFinding) : Option MergedFinding :=
  match group with
  | [] => none
  | base :: _ =>
    let sources := dedupFirst (group.map (·.sourceModel))
    let confidences :=
      group.foldl (fun acc f => upsertConfidence acc f.sourceModel f.confidence) []
    let mergedConfidence := (group.map (·.confidence)).sum / (group.length : ℚ)
    some
      { id := base.id
        ftype := base.ftype
        severity := base.severity
        description := base.description
        location := base.location
        suggestion := base.suggestion
        confidence := mergedConfidence
        sources := sources
        confidences := confidences
        consensusLevel := determineConsensusLevel sources.length group.length
        agreementScore := calculateAgreementScore group }

/-- `ConsensusBuilder.buildConsensus` (src/src/cli/output-formatter.ts
lines 455-498), restricted to the merged findings it computes: throws
`ConsensusBuildError` on an empty response list, otherwise flattens,
groups and merges. -/
def buildConsensus (responses : List AgentResponse) :
    Except ConsensusError (List MergedFinding) :=
  match responses with
  | [] => .error .noResponses
  | _ =>
    let allFindings := collectAllFindings responses
    let grouped := groupFindingsBySimilarity allFindings
    .ok ((grouped.map (·.2)).filterMap mergeFindingGroup)

/-! ## Concrete instances used by witnesses and counterexamples -/

/-- A `ToolError` whose message carries a rate-limit marker. -/
def toolRateLimitErr : JsError := .toolError "file-writer" "rate limit exceeded"

/-- Agent stub: two retryable failures, then success. -/
def retryAgentA : Nat → Except JsError Nat := fun n =>
  if n = 1 then .error rateLimitErr else if n = 2 then .error timeoutErr else .ok 7

/-- Agent stub: non-retryable failure on the first call. -/
def retryAgentB : Nat → Except JsError Nat := fun _ => .error fatalErr

/-- Agent stub: retryable failures on every call. -/
def retryAgentC : Nat → Except JsError Nat := fun n =>
  if n = 1 then .error rateLimitErr else if n = 2 then .error timeoutErr
  else .error rateLimitErr

/-- Zero pricing (costs stay 0 in concrete runs). -/
def zeroPricing : ModelPricing := ⟨0, 0⟩

/-- A freshly constructed tracker with zero pricing. -/
def baseTracker : Tracker := freshTracker zeroPricing zeroPricing zeroPricing

/-- A pending task as `createTasksFromArchitecture` materializes it
(src/src/core/workflow-manager.ts lines 433-464): empty history, zero
token usage, `iterationCount = 0`, `maxIterations = 3`. -/
def pendingTask : Task :=
  { id := "task-core"
    status := .pending
    reviewHistory := []
    currentReview := none
    tokenUsage := ⟨0, [], [], 0⟩
    iterationCount := 0
    maxIterations := 3
    hasImplementation := false }

/-- A second pending task. -/
def secondTask : Task := { pendingTask with id := "task-service" }

/-- Iteration script: every review rejects. -/
def rejectScript : Nat → IterationBehavior := fun _ => ⟨.ok 10, .ok (.reject, 5)⟩

/-- Iteration script: the first review approves. -/
def approveScript : Nat → IterationBehavior := fun _ => ⟨.ok 10, .ok (.approve, 5)⟩

/-- Iteration script: the developer call throws a non-retryable error. -/
def failingScript : Nat → IterationBehavior := fun _ => ⟨.error fatalErr, .ok (.reject, 0)⟩

/-- Per-task scripts: the first task's developer call fails, later tasks
would approve. -/
def mixedScripts : Nat → Nat → IterationBehavior := fun tIdx =>
  if tIdx = 0 then failingScript else approveScript

/-- Per-task scripts: every task approves on the first iteration. -/
def approveScripts : Nat → Nat → IterationBehavior := fun _ => approveScript

/-- The always-reject feedback-loop run. -/
def rejectRun : Except JsError (Tracker × Task) :=
  devReviewFeedbackLoop rejectScript baseTracker pendingTask

/-- Its (successful) outcome. -/
def rejectRunOut : Tracker × Task := rejectRun.toOption.getD (baseTracker, pendingTask)

/-- The approve run through `executeTaskWithReviewLoop` (skipping
approval/commit). -/
def approveExecRun : Except JsError (Tracker × Task) :=
  executeTaskWithReviewLoop true approveScript baseTracker pendingTask

/-- Its (successful) outcome. -/
def approveExecRunOut : Tracker × Task :=
  approveExecRun.toOption.getD (baseTracker, pendingTask)

/-- A task carrying 20 architecture tokens on its own usage record. -/
def archTask : Task :=
  { pendingTask with id := "task-arch", tokenUsage := ⟨20, [], [], 20⟩ }

/-- Tracker after `recordArchitecture('architect', 20)` on a fresh tracker. -/
def c3Tracker : Tracker := recordArchitecture baseTracker .architect 20

/-- Then `recordDevelopment(task, 'developer', 100)`. -/
def c3AfterDev : Tracker × Task := recordDevelopment c3Tracker archTask .developer 100

/-- Then `recordReview(task, 'reviewer', 50)`. -/
def c3AfterReview : Tracker × Task :=
  recordReview c3AfterDev.1 c3AfterDev.2 .reviewer 50

/-- Finding `A`: id 1, description `"ab"`. Similar to `B`, not to `C`. -/
def findingA : Finding := ⟨"1", "bug", "low", "ab", none, none, 1/2⟩

/-- Finding `B`: id 2, description `"b"`. Similar to both `A` and `C`. -/
def findingB : Finding := ⟨"2", "bug", "low", "b", none, none, 1/2⟩

/-- Finding `C`: id 3, description `"bc"`. Similar to `B`, not to `A`. -/
def findingC : Finding := ⟨"3", "bug", "low", "bc", none, none, 1/2⟩

/-- Response carrying `A, B, C` in that order. -/
def respABC : AgentResponse := ⟨"model-1", [findingA, findingB, findingC]⟩

/-- Response carrying the permutation `B, A, C`. -/
def respBAC : AgentResponse := ⟨"model-1", [findingB, findingA, findingC]⟩

/-- Two findings sharing one id with different confidences (1/2 and 3/5). -/
def findingD : Finding := ⟨"7", "bug", "low", "duplicate finding", none, none, 1/2⟩

/-- The second finding with id 7. -/
def findingE : Finding := ⟨"7", "bug", "low", "duplicate finding", none, none, 3/5⟩

/-- A single response whose two findings share an id. -/
def respDup : AgentResponse := ⟨"model-x", [findingD, findingE]⟩

/-- `findingD` tagged with its source model. -/
def sfD : SFinding := ⟨findingD, "model-x"⟩

/-- `findingE` tagged with its source model. -/
def sfE : SFinding := ⟨findingE, "model-x"⟩

/-- Two findings with distinct ids and non-overlapping descriptions. -/
def findingF : Finding := ⟨"a", "bug", "low", "aaaa", none, none, 2/5⟩

/-- The second non-similar finding. -/
def findingG : Finding := ⟨"b", "bug", "low", "bbbb", none, none, 7/10⟩

/-- A single response with pairwise distinct, non-similar findings. -/
def respDistinct : AgentResponse := ⟨"model-w", [findingF, findingG]⟩

/-- A finding with id `"u"` and confidence 4/5, as reported by model 1. -/
def findingU1 : Finding := ⟨"u", "bug", "high", "shared issue", none, none, 4/5⟩

/-- The same finding as reported by model 2. -/
def findingU2 : Finding := ⟨"u", "bug", "high", "shared issue seen again", none, none, 4/5⟩

/-- The same finding as reported by model 3. -/
def findingU3 : Finding := ⟨"u", "bug", "high", "shared issue once more", none, none, 4/5⟩

/-- A source-tagged finding with id `"z"` from model 1. -/
def sfZ1 : SFinding := ⟨⟨"z", "bug", "low", "first", none, none, 1/2⟩, "model-1"⟩

/-- The second source-tagged finding with id `"z"`, from model 2. -/
def sfZ2 : SFinding := ⟨⟨"z", "bug", "low", "second", none, none, 3/4⟩, "model-2"⟩

end CodeForge

namespace CodeForge

/-! ## Helper lemmas: the tracker's record calls touch only token usage -/

/-- `updateTaskTotal` keeps the task's status. -/
@[simp] theorem updateTaskTotal_status (tr : Tracker) (t : Task) :
    (updateTaskTotal tr t).2.status = t.status := by
  rcases h : getTaskMetrics tr.byTask t.id with _ | tm <;> simp [updateTaskTotal, h]

/-- `updateTaskTotal` keeps the task's id. -/
@[simp] theorem updateTaskTotal_id (tr : Tracker) (t : Task) :
    (updateTaskTotal tr t).2.id = t.id := by
  rcases h : getTaskMetrics tr.byTask t.id with _ | tm <;> simp [updateTaskTotal, h]

/-- `updateTaskTotal` keeps the iteration count. -/
@[simp] theorem updateTaskTotal_iterationCount (tr : Tracker) (t : Task) :
    (updateTaskTotal tr t).2.iterationCount = t.iterationCount := by
  rcases h : getTaskMetrics tr.byTask t.id with _ | tm <;> simp [updateTaskTotal, h]

/-- `updateTaskTotal` keeps `maxIterations`. -/
@[simp] theorem updateTaskTotal_maxIterations (tr : Tracker) (t : Task) :
    (updateTaskTotal tr t).2.maxIterations = t.maxIterations := by
  rcases h : getTaskMetrics tr.byTask t.id with _ | tm <;> simp [updateTaskTotal, h]

/-- `updateTaskTotal` keeps the review history. -/
@[simp] theorem updateTaskTotal_reviewHistory (tr : Tracker) (t : Task) :
    (updateTaskTotal tr t).2.reviewHistory = t.reviewHistory := by
  rcases h : getTaskMetrics tr.byTask t.id with _ | tm <;> simp [updateTaskTotal, h]

/-- `updateTaskTotal` keeps the current review. -/
@[simp] theorem updateTaskTotal_currentReview (tr : Tracker) (t : Task) :
    (updateTaskTotal tr t).2.currentReview = t.currentReview := by
  rcases h : getTaskMetrics tr.byTask t.id with _ | tm <;> simp [updateTaskTotal, h]

/-- `updateTaskTotal` keeps the development token array. -/
@[simp] theorem updateTaskTotal_development (tr : Tracker) (t : Task) :
    (updateTaskTotal tr t).2.tokenUsage.development = t.tokenUsage.development := by
  rcases h : getTaskMetrics tr.byTask t.id with _ | tm <;> simp [updateTaskTotal, h]

/-- `updateTaskTotal` keeps the review token array. -/
@[simp] theorem updateTaskTotal_review (tr : Tracker) (t : Task) :
    (updateTaskTotal tr t).2.tokenUsage.review = t.tokenUsage.review := by
  rcases h : getTaskMetrics tr.byTask t.id with _ | tm <;> simp [updateTaskTotal, h]

/-- `recordDevelopment` keeps the task's status. -/
@[simp] theorem recordDevelopment_status (tr : Tracker) (t : Task) (role : AgentRole)
    (tok : Nat) : (recordDevelopment tr t role tok).2.status = t.status := by
  simp [recordDevelopment]

/-- `recordDevelopment` keeps the iteration count. -/
@[simp] theorem recordDevelopment_iterationCount (tr : Tracker) (t : Task)
    (role : AgentRole) (tok : Nat) :
    (recordDevelopment tr t role tok).2.iterationCount = t.iterationCount := by
  simp [recordDevelopment]

/-- `recordDevelopment` keeps `maxIterations`. -/
@[simp] theorem recordDevelopment_maxIterations (tr : Tracker) (t : Task)
    (role : AgentRole) (tok : Nat) :
    (recordDevelopment tr t role tok).2.maxIterations = t.maxIterations := by
  simp [recordDevelopment]

/-- `recordDevelopment` keeps the review history. -/
@[simp] theorem recordDevelopment_reviewHistory (tr : Tracker) (t : Task)
    (role : AgentRole) (tok : Nat) :
    (recordDevelopment tr t role tok).2.reviewHistory = t.reviewHistory := by
  simp [recordDevelopment]

/-- `recordDevelopment` keeps the current review. -/
@[simp] theorem recordDevelopment_currentReview (tr : Tracker) (t : Task)
    (role : AgentRole) (tok : Nat) :
    (recordDevelopment tr t role tok).2.currentReview = t.currentReview := by
  simp [recordDevelopment]

/-- `recordDevelopment` performs the tracker-side (second) push onto the
task's development array. -/
@[simp] theorem recordDevelopment_development (tr : Tracker) (t : Task)
    (role : AgentRole) (tok : Nat) :
    (recordDevelopment tr t role tok).2.tokenUsage.development
      = t.tokenUsage.development ++ [tok] := by
  simp [recordDevelopment]

/-- `recordDevelopment` keeps the review token array. -/
@[simp] theorem recordDevelopment_review (tr : Tracker) (t : Task)
    (role : AgentRole) (tok : Nat) :
    (recordDevelopment tr t role tok).2.tokenUsage.review = t.tokenUsage.review := by
  simp [recordDevelopment]

/-- `recordReview` keeps the task's status. -/
@[simp] theorem recordReview_status (tr : Tracker) (t : Task) (role : AgentRole)
    (tok : Nat) : (recordReview tr t role tok).2.status = t.status := by
  simp [recordReview]

/-- `recordReview` keeps the iteration count. -/
@[simp] theorem recordReview_iterationCount (tr : Tracker) (t : Task)
    (role : AgentRole) (tok : Nat) :
    (recordReview tr t role tok).2.iterationCount = t.iterationCount := by
  simp [recordReview]

/-- `recordReview` keeps `maxIterations`. -/
@[simp] theorem recordReview_maxIterations (tr : Tracker) (t : Task)
    (role : AgentRole) (tok : Nat) :
    (recordReview tr t role tok).2.maxIterations = t.maxIterations := by
  simp [recordReview]

/-- `recordReview` keeps the review history. -/
@[simp] theorem recordReview_reviewHistory (tr : Tracker) (t : Task)
    (role : AgentRole) (tok : Nat) :
    (recordReview tr t role tok).2.reviewHistory = t.reviewHistory := by
  simp [recordReview]

/-- `recordReview` keeps the current review. -/
@[simp] theorem recordReview_currentReview (tr : Tracker) (t : Task)
    (role : AgentRole) (tok : Nat) :
    (recordReview tr t role tok).2.currentReview = t.currentReview := by
  simp [recordReview]

/-- `recordReview` keeps the development token array. -/
@[simp] theorem recordReview_development (tr : Tracker) (t : Task)
    (role : AgentRole) (tok : Nat) :
    (recordReview tr t role tok).2.tokenUsage.development
      = t.tokenUsage.development := by
  simp [recordReview]

/-- `recordReview` performs the tracker-side (second) push onto the
task's review array. -/
@[simp] theorem recordReview_review (tr : Tracker) (t : Task)
    (role : AgentRole) (tok : Nat) :
    (recordReview tr t role tok).2.tokenUsage.review
      = t.tokenUsage.review ++ [tok] := by
  simp [recordReview]

/-! ## Helper lemmas: feedback-loop invariants -/

/-- Invariant of the feedback loop body: when entered with
`iterationCount + fuel = maxIterations` (the loop guard in synchronized
form), a successful exit keeps `maxIterations`, never pushes
`iterationCount` past it, ends `approved` or at the boundary with
`needs_revision` (or untouched when the guard failed immediately), and
performs at most `fuel` iterations (one review-history entry each). -/
theorem devReviewLoopAux_invariant (script : Nat → IterationBehavior) :
    ∀ (fuel i : Nat) (tr : Tracker) (t : Task) (r : Tracker × Task),
    t.iterationCount + fuel = t.maxIterations →
    devReviewLoopAux script fuel i tr t = .ok r →
    r.2.maxIterations = t.maxIterations ∧
    r.2.iterationCount ≤ t.maxIterations ∧
    (r.2.status = .approved ∨
      (r.2.iterationCount = t.maxIterations ∧
        (r.2.status = .needs_revision ∨ (fuel = 0 ∧ r.2 = t ∧ r.1 = tr)))) ∧
    r.2.reviewHistory.length ≤ t.reviewHistory.length + fuel := by
  intro fuel
  induction fuel with
  | zero =>
    intro i tr t r hsum hrun
    simp only [devReviewLoopAux] at hrun
    injection hrun with h
    subst h
    refine ⟨rfl, ?_, Or.inr ⟨?_, Or.inr ⟨rfl, rfl, rfl⟩⟩, ?_⟩
    · show t.iterationCount ≤ t.maxIterations
      omega
    · show t.iterationCount = t.maxIterations
      omega
    · show t.reviewHistory.length ≤ t.reviewHistory.length + 0
      omega
  | succ fuel ih =>
    intro i tr t r hsum hrun
    rw [devReviewLoopAux] at hrun
    rcases hdev : (script i).dev with e | devTok
    · rw [hdev] at hrun
      cases hrun
    rcases hrev : (script i).review with e | ⟨dec, revTok⟩
    · simp only [hdev, hrev] at hrun
      exact (Except.noConfusion hrun)
    · cases dec with
      | approve =>
        simp only [hdev, hrev] at hrun
        injection hrun with h
        subst h
        refine ⟨by simp, ?_, Or.inl (by simp), ?_⟩
        · simp
          omega
        · simp
      | reject =>
        simp only [hdev, hrev] at hrun
        have hnext := ih (i + 1) _ _ r (by simp; omega) hrun
        obtain ⟨hmax, hle, hdisj, hlen⟩ := hnext
        simp at hmax hle hlen
        refine ⟨hmax, hle, ?_, by omega⟩
        simp at hdisj
        rcases hdisj with h | ⟨hcnt, hinner⟩
        · exact Or.inl h
        refine Or.inr ⟨hcnt, ?_⟩
        rcases hinner with h | ⟨_, heq, _⟩
        · exact Or.inl h
        · exact Or.inl (by rw [heq])

/-- If the loop exits `approved` (from a task not already `approved`),
the approving feedback entry is in the review history. -/
theorem devReviewLoopAux_approved_mem (script : Nat → IterationBehavior) :
    ∀ (fuel i : Nat) (tr : Tracker) (t : Task) (r : Tracker × Task),
    t.status ≠ .approved →
    devReviewLoopAux script fuel i tr t = .ok r →
    r.2.status = .approved →
    ∃ fb ∈ r.2.reviewHistory, fb.decision = .approve := by
  intro fuel
  induction fuel with
  | zero =>
    intro i tr t r hne hrun happ
    simp only [devReviewLoopAux] at hrun
    injection hrun with h
    subst h
    exact absurd happ hne
  | succ fuel ih =>
    intro i tr t r hne hrun happ
    rw [devReviewLoopAux] at hrun
    rcases hdev : (script i).dev with e | devTok
    · rw [hdev] at hrun
      cases hrun
    rcases hrev : (script i).review with e | ⟨dec, revTok⟩
    · simp only [hdev, hrev] at hrun
      exact (Except.noConfusion hrun)
    · cases dec with
      | approve =>
        simp only [hdev, hrev] at hrun
        injection hrun with h
        subst h
        refine ⟨⟨.approve, revTok⟩, ?_, rfl⟩
        simp
      | reject =>
        simp only [hdev, hrev] at hrun
        exact ih (i + 1) _ _ r (by simp) hrun happ

/-- Any successful loop exit ends `approved`, `needs_revision`, or with
the entry status untouched. -/
theorem devReviewLoopAux_status_cases (script : Nat → IterationBehavior) :
    ∀ (fuel i : Nat) (tr : Tracker) (t : Task) (r : Tracker × Task),
    devReviewLoopAux script fuel i tr t = .ok r →
    r.2.status = .approved ∨ r.2.status = .needs_revision ∨ r.2.status = t.status := by
  intro fuel
  induction fuel with
  | zero =>
    intro i tr t r hrun
    simp only [devReviewLoopAux] at hrun
    injection hrun with h
    subst h
    exact Or.inr (Or.inr rfl)
  | succ fuel ih =>
    intro i tr t r hrun
    rw [devReviewLoopAux] at hrun
    rcases hdev : (script i).dev with e | devTok
    · rw [hdev] at hrun
      cases hrun
    rcases hrev : (script i).review with e | ⟨dec, revTok⟩
    · simp only [hdev, hrev] at hrun
      exact (Except.noConfusion hrun)
    · cases dec with
      | approve =>
        simp only [hdev, hrev] at hrun
        injection hrun with h
        subst h
        exact Or.inl (by simp)
      | reject =>
        simp only [hdev, hrev] at hrun
        rcases ih (i + 1) _ _ r hrun with h | h | h
        · exact Or.inl h
        · exact Or.inr (Or.inl h)
        · refine Or.inr (Or.inl ?_)
          rw [h]

/-- Each completed loop iteration contributes one review-history entry,
two pushes of its development token count and two pushes of its review
token count (the loop's own push plus the tracker's). -/
theorem devReviewLoopAux_double_push (script : Nat → IterationBehavior) :
    ∀ (fuel i : Nat) (tr : Tracker) (t : Task) (r : Tracker × Task),
    devReviewLoopAux script fuel i tr t = .ok r →
    ∃ (ds rs : List Nat),
      r.2.reviewHistory.length = t.reviewHistory.length + ds.length ∧
      rs.length = ds.length ∧
      r.2.tokenUsage.development
        = t.tokenUsage.development ++ ds.flatMap (fun x => [x, x]) ∧
      r.2.tokenUsage.review
        = t.tokenUsage.review ++ rs.flatMap (fun x => [x, x]) := by
  intro fuel
  induction fuel with
  | zero =>
    intro i tr t r hrun
    simp only [devReviewLoopAux] at hrun
    injection hrun with h
    subst h
    exact ⟨[], [], by simp, rfl, by simp, by simp⟩
  | succ fuel ih =>
    intro i tr t r hrun
    rw [devReviewLoopAux] at hrun
    rcases hdev : (script i).dev with e | devTok
    · rw [hdev] at hrun
      cases hrun
    rcases hrev : (script i).review with e | ⟨dec, revTok⟩
    · simp only [hdev, hrev] at hrun
      exact (Except.noConfusion hrun)
    · cases dec with
      | approve =>
        simp only [hdev, hrev] at hrun
        injection hrun with h
        subst h
        refine ⟨[devTok], [revTok], by simp, rfl, by simp, by simp⟩
      | reject =>
        simp only [hdev, hrev] at hrun
        obtain ⟨ds, rs, hh, hlen, hdev2, hrev2⟩ := ih (i + 1) _ _ r hrun
        refine ⟨devTok :: ds, revTok :: rs, ?_, by simp [hlen], ?_, ?_⟩
        · simp at hh
          simp [hh]
          omega
        · simp at hdev2
          simp [hdev2]
        · simp at hrev2
          simp [hrev2]

/-- Flat-mapping each element to a pair doubles the length. -/
theorem length_flatMap_pair (l : List Nat) :
    (l.flatMap fun x => [x, x]).length = 2 * l.length := by
  induction l with
  | nil => simp
  | cons x xs ih =>
    simp [ih]
    omega

/-- Claim C5: with `maxRetries = 3`, (1) two retryable (rate-limit /
timeout marked) failures then a success make exactly 3 `analyze` calls and
return the third call's success; (2) a non-retryable first failure makes
exactly 1 call and rethrows it; (3) three retryable failures exhaust the
budget with 3 calls, rethrowing the last observed error. -/
theorem executeWithRetry_behavior (mn : String) (agent : Nat → Except JsError Nat) :
    (∀ e1 e2 v, agent 1 = .error e1 → agent 2 = .error e2 → agent 3 = .ok v →
      isRetryableError e1 = true → isRetryableError e2 = true →
      executeWithRetry mn 3 agent = ⟨.ok v, 3⟩) ∧
    (∀ e, agent 1 = .error e → isRetryableError e = false →
      executeWithRetry mn 3 agent = ⟨.error e, 1⟩) ∧
    (∀ e1 e2 e3, agent 1 = .error e1 → agent 2 = .error e2 → agent 3 = .error e3 →
      isRetryableError e1 = true → isRetryableError e2 = true →
      isRetryableError e3 = true →
      executeWithRetry mn 3 agent = ⟨.error e3, 3⟩) := by
  refine ⟨?_, ?_, ?_⟩
  · intro e1 e2 v h1 h2 h3 hr1 hr2
    simp [executeWithRetry, executeWithRetryAux, h1, h2, h3, hr1, hr2]
  · intro e h1 hr
    simp [executeWithRetry, executeWithRetryAux, h1, hr]
  · intro e1 e2 e3 h1 h2 h3 hr1 hr2 hr3
    simp [executeWithRetry, executeWithRetryAux, h1, h2, h3, hr1, hr2, hr3]

/-- Witness for C5: the three retry scenarios evaluated on concrete agent
stubs (rate-limit then timeout then success; fatal; three retryable
failures). -/
theorem executeWithRetry_behavior_witness :
    executeWithRetry "deepseek-chat" 3 retryAgentA = ⟨.ok 7, 3⟩ ∧
    executeWithRetry "deepseek-chat" 3 retryAgentB = ⟨.error fatalErr, 1⟩ ∧
    executeWithRetry "deepseek-chat" 3 retryAgentC = ⟨.error rateLimitErr, 3⟩ :=
  ⟨(executeWithRetry_behavior "deepseek-chat" retryAgentA).1 rateLimitErr timeoutErr 7
      rfl rfl rfl (by decide) (by decide),
   (executeWithRetry_behavior "deepseek-chat" retryAgentB).2.1 fatalErr rfl (by decide),
   (executeWithRetry_behavior "deepseek-chat" retryAgentC).2.2 rateLimitErr timeoutErr
      rateLimitErr rfl rfl rfl (by decide) (by decide) (by decide)⟩

/-- Claim C1: on a successful feedback-loop exit, `iterationCount` never
exceeds `maxIterations` (which the loop preserves); if the loop ends
unapproved after actually running (entry `iterationCount < maxIterations`),
it stopped exactly at the boundary `iterationCount == maxIterations` with
status `needs_revision`; and it performed at most
`maxIterations - iterationCount` iterations (one review per iteration),
so no further development attempt happens at the boundary. -/
theorem c1_devReviewFeedbackLoop_iteration_bound (script : Nat → IterationBehavior)
    (tr : Tracker) (t : Task) (r : Tracker × Task)
    (hle : t.iterationCount ≤ t.maxIterations)
    (hrun : devReviewFeedbackLoop script tr t = .ok r) :
    r.2.maxIterations = t.maxIterations ∧
    r.2.iterationCount ≤ r.2.maxIterations ∧
    (r.2.status ≠ .approved → t.iterationCount < t.maxIterations →
      r.2.iterationCount = r.2.maxIterations ∧ r.2.status = .needs_revision) ∧
    r.2.reviewHistory.length
      ≤ t.reviewHistory.length + (t.maxIterations - t.iterationCount) := by
  have hsum : t.iterationCount + (t.maxIterations - t.iterationCount)
      = t.maxIterations := by omega
  obtain ⟨hmax, hcnt, hdisj, hlen⟩ :=
    devReviewLoopAux_invariant script (t.maxIterations - t.iterationCount) 0 tr t r
      hsum hrun
  refine ⟨hmax, by omega, ?_, hlen⟩
  intro hne hlt
  rcases hdisj with h | ⟨hc, hinner⟩
  · exact absurd h hne
  · refine ⟨by omega, ?_⟩
    rcases hinner with h | ⟨hf, _, _⟩
    · exact h
    · exact absurd hlt (by omega)

/-- Witness for C1: the always-reject run from a fresh task with
`maxIterations = 3` ends at the boundary with status `needs_revision`. -/
theorem c1_devReviewFeedbackLoop_iteration_bound_witness :
    pendingTask.iterationCount < pendingTask.maxIterations ∧
    rejectRunOut.2.iterationCount ≤ rejectRunOut.2.maxIterations ∧
    rejectRunOut.2.iterationCount = rejectRunOut.2.maxIterations ∧
    rejectRunOut.2.status = TaskStatus.needs_revision := by
  have hstat : rejectRunOut.2.status = TaskStatus.needs_revision := rfl
  have h := c1_devReviewFeedbackLoop_iteration_bound rejectScript baseTracker
    pendingTask rejectRunOut (by decide) rfl
  have hb := h.2.2.1 (by rw [hstat]; exact fun hh => nomatch hh) (by decide)
  exact ⟨by decide, h.2.1, hb.1, hstat⟩

/-- Claim C10: every completed loop iteration appends the iteration's
development token count to `task.tokenUsage.development` twice (the loop's
own push and the one inside `recordDevelopment`) and its review token
count to `task.tokenUsage.review` twice, so after `n` iterations each
array has grown by `2·n` entries (pairwise-duplicated), not `n`. -/
theorem c10_devReviewFeedbackLoop_double_push (script : Nat → IterationBehavior)
    (tr : Tracker) (t : Task) (r : Tracker × Task)
    (hrun : devReviewFeedbackLoop script tr t = .ok r) :
    ∃ (n : Nat) (ds rs : List Nat),
      r.2.reviewHistory.length = t.reviewHistory.length + n ∧
      ds.length = n ∧ rs.length = n ∧
      r.2.tokenUsage.development
        = t.tokenUsage.development ++ ds.flatMap (fun x => [x, x]) ∧
      r.2.tokenUsage.review
        = t.tokenUsage.review ++ rs.flatMap (fun x => [x, x]) ∧
      r.2.tokenUsage.development.length = t.tokenUsage.development.length + 2 * n ∧
      r.2.tokenUsage.review.length = t.tokenUsage.review.length + 2 * n := by
  obtain ⟨ds, rs, hh, hlen, hd, hr⟩ :=
    devReviewLoopAux_double_push script _ 0 tr t r hrun
  refine ⟨ds.length, ds, rs, hh, rfl, hlen, hd, hr, ?_, ?_⟩
  · rw [hd, List.length_append, length_flatMap_pair]
  · rw [hr, List.length_append, length_flatMap_pair, hlen]

/-- Witness for C10: the always-reject run performs 3 iterations and each
token array of the fresh task ends with 6 entries. -/
theorem c10_devReviewFeedbackLoop_double_push_witness :
    ∃ (n : Nat) (ds rs : List Nat),
      rejectRunOut.2.reviewHistory.length = pendingTask.reviewHistory.length + n ∧
      ds.length = n ∧ rs.length = n ∧
      rejectRunOut.2.tokenUsage.development
        = pendingTask.tokenUsage.development ++ ds.flatMap (fun x => [x, x]) ∧
      rejectRunOut.2.tokenUsage.review
        = pendingTask.tokenUsage.review ++ rs.flatMap (fun x => [x, x]) ∧
      rejectRunOut.2.tokenUsage.development.length
        = pendingTask.tokenUsage.development.length + 2 * n ∧
      rejectRunOut.2.tokenUsage.review.length
        = pendingTask.tokenUsage.review.length + 2 * n :=
  c10_devReviewFeedbackLoop_double_push rejectScript baseTracker pendingTask
    rejectRunOut rfl

/-- Claim C4: starting from pending tasks, neither
`executeTaskWithReviewLoop` nor the per-task loop of `orchestrateWorkflow`
can produce a task with status `completed` unless its review history
contains a feedback entry with decision `approve`. -/
theorem c4_completed_requires_approve :
    (∀ (skip : Bool) (script : Nat → IterationBehavior) (tr : Tracker) (t : Task)
      (r : Tracker × Task), t.status = .pending →
      executeTaskWithReviewLoop skip script tr t = .ok r →
      r.2.status = .completed →
      ∃ fb ∈ r.2.reviewHistory, fb.decision = .approve) ∧
    (∀ (scripts : Nat → Nat → IterationBehavior) (idx : Nat) (tr : Tracker)
      (ts : List Task) (r : Tracker × List Task),
      (∀ t ∈ ts, t.status = .pending) →
      orchestrateWorkflowTasks scripts idx tr ts = .ok r →
      ∀ t2 ∈ r.2, t2.status = .completed →
      ∃ fb ∈ t2.reviewHistory, fb.decision = .approve) := by
  have key : ∀ (script : Nat → IterationBehavior) (tr : Tracker) (t : Task)
      (p : Tracker × Task), t.status = .pending →
      devReviewFeedbackLoop script tr t = .ok p →
      p.2.status = .approved →
      ∃ fb ∈ p.2.reviewHistory, fb.decision = .approve := by
    intro script tr t p hpend hloop happ
    rw [devReviewFeedbackLoop] at hloop
    exact devReviewLoopAux_approved_mem script _ 0 tr t p
      (by rw [hpend]; exact fun hh => nomatch hh) hloop happ
  constructor
  · intro skip script tr t r hpend hexec hcomp
    rw [executeTaskWithReviewLoop] at hexec
    split at hexec
    · exact (Except.noConfusion hexec)
    next ptr pt heq =>
      split at hexec
      next hst =>
        split at hexec
        next =>
          injection hexec with h
          subst h
          obtain ⟨fb, hm, hd⟩ := key script tr t (ptr, pt) hpend heq hst
          exact ⟨fb, by simpa using hm, hd⟩
        next =>
          split at hexec
          next =>
            injection hexec with h
            subst h
            obtain ⟨fb, hm, hd⟩ := key script tr t (ptr, pt) hpend heq hst
            exact ⟨fb, by simpa using hm, hd⟩
          next =>
            injection hexec with h
            subst h
            exact absurd hcomp (by simp [hst])
      next hst =>
        injection hexec with h
        subst h
        rcases devReviewLoopAux_status_cases script _ 0 tr t (ptr, pt)
            (by rw [devReviewFeedbackLoop] at heq; exact heq) with h | h | h
        · exact absurd h hst
        · simp at h
          exact absurd hcomp (by simp [h])
        · simp at h
          exact absurd hcomp (by simp [h, hpend])
  · intro scripts idx tr ts
    induction ts generalizing idx tr with
    | nil =>
      intro r hpend hrun t2 hmem
      simp only [orchestrateWorkflowTasks] at hrun
      injection hrun with h
      subst h
      exact absurd hmem (by simp)
    | cons t rest ih =>
      intro r hpend hrun t2 hmem hcomp
      rw [orchestrateWorkflowTasks] at hrun
      split at hrun
      · exact (Except.noConfusion hrun)
      next ptr pt heq =>
        split at hrun
        · exact (Except.noConfusion hrun)
        next qtr qrest heq2 =>
          injection hrun with h
          subst h
          rcases List.mem_cons.mp hmem with hmem | hmem
          · by_cases hst : pt.status = .approved
            · rw [if_pos hst] at hmem
              obtain ⟨fb, hm, hd⟩ :=
                key (scripts idx) tr t (ptr, pt) (hpend t (by simp)) heq hst
              subst hmem
              exact ⟨fb, by simpa using hm, hd⟩
            · rw [if_neg hst] at hmem
              subst hmem
              exact absurd hcomp (fun hh => nomatch hh)
          · exact ih (idx + 1) ptr (qtr, qrest) (fun x hx => hpend x (by simp [hx]))
              heq2 t2 hmem hcomp

/-- Witness for C4: the skip-approval execution of an approving script
completes the pending task, and its history carries the approve entry. -/
theorem c4_completed_requires_approve_witness :
    approveExecRunOut.2.status = TaskStatus.completed ∧
    ∃ fb ∈ approveExecRunOut.2.reviewHistory, fb.decision = Decision.approve := by
  have hcomp : approveExecRunOut.2.status = TaskStatus.completed := rfl
  exact ⟨hcomp, c4_completed_requires_approve.1 true approveScript baseTracker
    pendingTask approveExecRunOut (by decide) rfl hcomp⟩

/-- Counterexample to C2: with two pending tasks where the first task's
developer call throws an unrecoverable error, `orchestrateWorkflow`'s task
loop does not record the task and continue — it rethrows the error, so the
run never completes and the second task is never processed. -/
theorem c2_counterexample :
    orchestrateWorkflowTasks mixedScripts 0 baseTracker [pendingTask, secondTask]
      = .error fatalErr ∧
    ∀ r, orchestrateWorkflowTasks mixedScripts 0 baseTracker [pendingTask, secondTask]
      ≠ .ok r := by
  have h1 : orchestrateWorkflowTasks mixedScripts 0 baseTracker
      [pendingTask, secondTask] = .error fatalErr := rfl
  refine ⟨h1, ?_⟩
  intro r hcontra
  rw [h1] at hcontra
  exact (Except.noConfusion hcontra)

/-- Claim C2 (amended): an error surfacing out of a task's feedback loop
propagates out of `orchestrateWorkflow`'s task loop unchanged — there is
no catch — so the failing task is not recorded as `needs_revision` and no
later task is processed. -/
theorem c2_orchestrate_error_propagates (scripts : Nat → Nat → IterationBehavior)
    (idx : Nat) (tr : Tracker) (t : Task) (rest : List Task) (e : JsError)
    (h : devReviewFeedbackLoop (scripts idx) tr t = .error e) :
    orchestrateWorkflowTasks scripts idx tr (t :: rest) = .error e := by
  rw [orchestrateWorkflowTasks, h]

/-- Witness for C2 (amended): the concrete failing first task aborts the
whole two-task run with its error. -/
theorem c2_orchestrate_error_propagates_witness :
    orchestrateWorkflowTasks mixedScripts 0 baseTracker (pendingTask :: [secondTask])
      = .error fatalErr :=
  c2_orchestrate_error_propagates mixedScripts 0 baseTracker pendingTask
    [secondTask] fatalErr rfl

/-- Counterexample to C3: a task whose architecture tokens are 20 (both on
the task record and recorded through `recordArchitecture`), after
`recordDevelopment(100)` and `recordReview(50)`, ends with
`tokenUsage.total = 150`, not 170 — `recordArchitecture` is not
task-scoped, so the per-task total never includes architecture tokens. -/
theorem c3_counterexample :
    archTask.tokenUsage.architecture = 20 ∧
    c3Tracker.byPhase.architecture = 20 ∧
    c3AfterReview.2.tokenUsage.total = 150 ∧
    c3AfterReview.2.tokenUsage.total ≠ 170 := by
  refine ⟨rfl, rfl, rfl, ?_⟩
  intro hcontra
  have h150 : c3AfterReview.2.tokenUsage.total = 150 := rfl
  rw [h150] at hcontra
  exact absurd hcontra (by decide)

/-- Claim C3 (amended): for every task, recording 100 development tokens
and 50 review tokens against it on a fresh tracker yields
`tokenUsage.total = 150`: the per-task total sums only the tracker's
per-task development and review entries, and `recordArchitecture` (which
takes no task) leaves the tracker's per-task architecture count at 0
regardless of the architecture tokens recorded. -/
theorem c3_task_total_150 (pa pd pr : ModelPricing) (role : AgentRole)
    (archTokens : Nat) (t : Task) :
    (recordReview
      (recordDevelopment (recordArchitecture (freshTracker pa pd pr) role archTokens)
        t .developer 100).1
      (recordDevelopment (recordArchitecture (freshTracker pa pd pr) role archTokens)
        t .developer 100).2
      .reviewer 50).2.tokenUsage.total = 150 := by
  simp [recordReview, recordDevelopment, recordArchitecture, freshTracker,
    updateTaskTotal, getTaskMetrics, setTaskMetrics, updateCostEstimate]

/-- Counterexample to C6: a `ToolError` whose message contains the
rate-limit marker is still classified non-retryable — the classification
is not determined by the message alone; it is conditional on the error
being a `ModelError`. -/
theorem c6_counterexample :
    specRetryMarker toolRateLimitErr.message = true ∧
    isRetryableError toolRateLimitErr = false := by
  exact ⟨by decide, rfl⟩

/-- Claim C6 (amended): an error is classified retryable iff it is a
`ModelError` whose message contains a rate-limit, timeout, or 429 marker;
every non-`ModelError` error (including tool errors carrying such a
marker) is fatal on first occurrence. -/
theorem c6_retryable_iff_modelError_marker (e : JsError) :
    isRetryableError e = true ↔
      (e.isModelErr = true ∧ specRetryMarker e.message = true) := by
  cases e with
  | modelError m msg =>
    simp [isRetryableError, JsError.isModelErr, specRetryMarker, JsError.message]
  | toolError tn msg =>
    simp [isRetryableError, JsError.isModelErr]
  | genericError msg =>
    simp [isRetryableError, JsError.isModelErr]

/-! ## Helper lemmas: grouping -/

/-- Folding findings that all carry key `i` into a single group keyed `i`
appends each of them to that group (exact id match is taken first). -/
theorem foldl_insert_same_id (i : String) :
    ∀ (fs acc : List SFinding), (∀ f ∈ fs, f.id = i) →
    List.foldl insertFinding [(i, acc)] fs = [(i, acc ++ fs)] := by
  intro fs
  induction fs with
  | nil =>
    intro acc h
    simp
  | cons f fs ih =>
    intro acc h
    have hf : f.id = i := h f (by simp)
    have hins : insertFinding [(i, acc)] f = [(i, acc ++ [f])] := by
      simp [insertFinding, hasGroupKey, pushToGroupKey, hf]
    rw [List.foldl_cons, hins, ih (acc ++ [f]) (fun x hx => h x (by simp [hx]))]
    simp

/-- Grouping a non-empty list of findings that all share one id yields a
single group with exactly that membership, in input order. -/
theorem groupFindingsBySimilarity_same_id (i : String) (fs : List SFinding)
    (hne : fs ≠ []) (hid : ∀ f ∈ fs, f.id = i) :
    groupFindingsBySimilarity fs = [(i, fs)] := by
  cases fs with
  | nil => exact absurd rfl hne
  | cons f rest =>
    have hf : f.id = i := hid f (by simp)
    have h0 : insertFinding [] f = [(f.id, [f])] := by
      simp [insertFinding, hasGroupKey, pushToFirstSimilar]
    rw [groupFindingsBySimilarity, List.foldl_cons, h0, hf,
      foldl_insert_same_id i rest [f] (fun x hx => hid x (by simp [hx]))]
    simp

/-- Counterexample to C7: the flattened findings `B, A, C` are a
permutation of `A, B, C`, yet merging the first order produces one group
while the second produces two — the similarity heuristic is not
transitive (`A ~ B`, `B ~ C`, but not `A ~ C`), so group membership
depends on input order. -/
theorem c7_counterexample :
    respBAC.findings.Perm respABC.findings ∧
    (buildConsensus [respABC]).map List.length = .ok 2 ∧
    (buildConsensus [respBAC]).map List.length = .ok 1 := by
  refine ⟨?_, rfl, rfl⟩
  show ([findingB, findingA, findingC]).Perm [findingA, findingB, findingC]
  exact List.Perm.swap findingA findingB [findingC]

/-- Claim C7 (amended): order-independence of the merge does not hold in
general; it does hold when all flattened findings share one id (the
authoritative exact-id grouping): every permutation then yields a single
group with identical membership up to order (so the same confidences and
scores follow from the same multiset of members). -/
theorem c7_same_id_order_insensitive (i : String) (fs fs2 : List SFinding)
    (hperm : fs.Perm fs2) (hne : fs ≠ []) (hid : ∀ f ∈ fs, f.id = i) :
    ∃ g g2, groupFindingsBySimilarity fs = [(i, g)] ∧
      groupFindingsBySimilarity fs2 = [(i, g2)] ∧ g.Perm g2 := by
  have hid2 : ∀ f ∈ fs2, f.id = i := fun f hf => hid f (hperm.mem_iff.mpr hf)
  have hne2 : fs2 ≠ [] := by
    intro hcontra
    subst hcontra
    exact hne hperm.eq_nil
  exact ⟨fs, fs2, groupFindingsBySimilarity_same_id i fs hne hid,
    groupFindingsBySimilarity_same_id i fs2 hne2 hid2, hperm⟩

/-- Witness for C7 (amended): two source-tagged findings sharing id `"z"`,
grouped in both orders, give one group each with permuted membership. -/
theorem c7_same_id_order_insensitive_witness :
    ∃ g g2, groupFindingsBySimilarity [sfZ1, sfZ2] = [("z", g)] ∧
      groupFindingsBySimilarity [sfZ2, sfZ1] = [("z", g2)] ∧ g.Perm g2 :=
  c7_same_id_order_insensitive "z" [sfZ1, sfZ2] [sfZ2, sfZ1]
    (List.Perm.swap sfZ2 sfZ1 []) (by simp) (by simp [sfZ1, sfZ2])

/-- No group key matches a finding whose id differs from every mapped one. -/
theorem hasGroupKey_map_singletons (f : SFinding) :
    ∀ (pre : List SFinding), (∀ a ∈ pre, a.id ≠ f.id) →
    hasGroupKey (pre.map fun x => (x.id, [x])) f.id = false := by
  intro pre
  induction pre with
  | nil =>
    intro h
    simp [hasGroupKey]
  | cons a pre ih =>
    intro h
    have ha : a.id ≠ f.id := h a (by simp)
    simp [hasGroupKey, ha, ih (fun x hx => h x (by simp [hx]))]

/-- The similarity scan finds nothing when the finding is similar to none
of the singleton-group heads. -/
theorem pushToFirstSimilar_map_singletons (f : SFinding) :
    ∀ (pre : List SFinding),
    (∀ a ∈ pre, findingsSimilar f.toFinding a.toFinding = false) →
    pushToFirstSimilar (pre.map fun x => (x.id, [x])) f = none := by
  intro pre
  induction pre with
  | nil =>
    intro h
    simp [pushToFirstSimilar]
  | cons a pre ih =>
    intro h
    have ha : findingsSimilar f.toFinding a.toFinding = false := h a (by simp)
    simp [pushToFirstSimilar, ha, ih (fun x hx => h x (by simp [hx]))]

/-- Inserting a finding that matches no existing singleton group (by id or
similarity) appends a fresh singleton group. -/
theorem insertFinding_fresh (pre : List SFinding) (f : SFinding)
    (hid : ∀ a ∈ pre, a.id ≠ f.id)
    (hsim : ∀ a ∈ pre, findingsSimilar f.toFinding a.toFinding = false) :
    insertFinding (pre.map fun x => (x.id, [x])) f
      = (pre ++ [f]).map fun x => (x.id, [x]) := by
  simp [insertFinding, hasGroupKey_map_singletons f pre hid,
    pushToFirstSimilar_map_singletons f pre hsim]

/-- Folding pairwise id-distinct, pairwise non-similar findings produces
one singleton group per finding, in input order. -/
theorem foldl_insert_pairwise :
    ∀ (fs pre : List SFinding),
    (∀ a ∈ pre, ∀ b ∈ fs,
      a.id ≠ b.id ∧ findingsSimilar b.toFinding a.toFinding = false) →
    List.Pairwise
      (fun a b => a.id ≠ b.id ∧ findingsSimilar b.toFinding a.toFinding = false) fs →
    List.foldl insertFinding (pre.map fun x => (x.id, [x])) fs
      = (pre ++ fs).map fun x => (x.id, [x]) := by
  intro fs
  induction fs with
  | nil =>
    intro pre h hp
    simp
  | cons b fs ih =>
    intro pre h hp
    rw [List.foldl_cons,
      insertFinding_fresh pre b (fun a ha => (h a ha b (by simp)).1)
        (fun a ha => (h a ha b (by simp)).2)]
    obtain ⟨hb, htail⟩ := List.pairwise_cons.mp hp
    rw [ih (pre ++ [b]) ?_ htail]
    · simp
    · intro a ha c hc
      rcases List.mem_append.mp ha with ha | ha
      · exact h a ha c (by simp [hc])
      · have : a = b := by simpa using ha
        subst this
        exact hb c hc

/-- Grouping pairwise-distinct, pairwise non-similar findings yields one
singleton group per finding. -/
theorem groupFindingsBySimilarity_pairwise (fs : List SFinding)
    (hp : List.Pairwise
      (fun a b => a.id ≠ b.id ∧ findingsSimilar b.toFinding a.toFinding = false) fs) :
    groupFindingsBySimilarity fs = fs.map fun x => (x.id, [x]) := by
  have h := foldl_insert_pairwise fs [] (by simp) hp
  simpa [groupFindingsBySimilarity] using h

/-! ## Helper lemmas: the rational square root on perfect squares -/

/-- `natSqrtAux` returns `k` when `k` is the greatest square root below
the search bound. -/
theorem natSqrtAux_eq (n : Nat) :
    ∀ (bound k : Nat), k * k ≤ n → (∀ j, k < j → j ≤ bound → n < j * j) →
    k ≤ bound → natSqrtAux n bound = k := by
  intro bound
  induction bound with
  | zero =>
    intro k hk _ hkb
    interval_cases k
    rfl
  | succ b ih =>
    intro k hk hgt hkb
    by_cases hle : (b + 1) * (b + 1) ≤ n
    · have hkeq : k = b + 1 := by
        rcases Nat.lt_or_ge k (b + 1) with h | h
        · exact absurd hle (by have := hgt (b + 1) h (Nat.le_refl _); omega)
        · omega
      subst hkeq
      simp [natSqrtAux, hle]
    · have hkne : k ≠ b + 1 := by
        intro hcontra
        subst hcontra
        exact hle hk
      have hkb2 : k ≤ b := by omega
      rw [natSqrtAux, if_neg hle]
      exact ih k hk (fun j hj hjb => hgt j hj (by omega)) hkb2

/-- The integer square root of a perfect square. -/
theorem natSqrt_mul_self (n : Nat) : natSqrt (n * n) = n := by
  refine natSqrtAux_eq (n * n) (n * n) n (Nat.le_refl _) ?_ ?_
  · intro j hj _
    exact Nat.mul_lt_mul_of_lt_of_le hj (Nat.le_of_lt hj) (by omega)
  · nlinarith

/-- `ratSqrt` is exact on perfect squares: the square root of `r * r` for
nonnegative `r` is `r` (matching `Math.sqrt` at such inputs). -/
theorem ratSqrt_mul_self (r : ℚ) (hr : 0 ≤ r) : ratSqrt (r * r) = r := by
  have hnum : 0 ≤ r.num := Rat.num_nonneg.mpr hr
  have hm : r.num = (r.num.toNat : ℤ) := (Int.toNat_of_nonneg hnum).symm
  rw [ratSqrt, Rat.mul_self_num, Rat.mul_self_den]
  rw [show r.num * r.num = ((r.num.toNat * r.num.toNat : ℕ) : ℤ) by
    rw [Nat.cast_mul, ← hm]]
  rw [Int.toNat_natCast, natSqrt_mul_self, natSqrt_mul_self]
  have hcast : ((r.num.toNat : ℕ) : ℚ) = ((r.num : ℤ) : ℚ) := by
    exact_mod_cast hm.symm
  rw [hcast]
  exact Rat.num_div_den r

/-- The agreement score of a two-member group in closed form:
`max 0 (1 - |b - a|)` (here with `a ≤ b`), since the standard deviation of
two values is half their distance. -/
theorem calculateAgreementScore_pair (s1 s2 : SFinding) (a b : ℚ)
    (h1 : s1.confidence = a) (h2 : s2.confidence = b) (hle : a ≤ b) :
    calculateAgreementScore [s1, s2] = max 0 (1 - (b - a)) := by
  simp only [calculateAgreementScore, calcScoreMulti, List.map_cons, List.map_nil,
    List.sum_cons, List.sum_nil, List.length_cons, List.length_nil, h1, h2,
    Nat.cast_ofNat, Nat.zero_add, Nat.reduceAdd]
  have hv : ((a - (a + (b + 0)) / (2 : ℚ)) * (a - (a + (b + 0)) / (2 : ℚ)) +
        ((b - (a + (b + 0)) / (2 : ℚ)) * (b - (a + (b + 0)) / (2 : ℚ)) + 0)) / (2 : ℚ)
      = ((b - a) / 2) * ((b - a) / 2) := by
    ring
  rw [hv, ratSqrt_mul_self ((b - a) / 2) (by linarith)]
  congr 1
  ring

/-- Counterexample to C8: a single response whose two findings share one
id (confidences 1/2 and 3/5) merges into one group whose agreement score
is 9/10—equal to neither contributing finding's confidence. -/
theorem c8_counterexample :
    (buildConsensus [respDup]).map (fun mfs => mfs.map (·.agreementScore))
      = .ok [9/10] ∧
    respDup.findings.map (·.confidence) = [1/2, 3/5] ∧
    ¬((9 : ℚ)/10 = 1/2) ∧ ¬((9 : ℚ)/10 = 3/5) := by
  have hcol : collectAllFindings [respDup] = [sfD, sfE] := rfl
  have hgroup : groupFindingsBySimilarity (collectAllFindings [respDup])
      = [("7", [sfD, sfE])] := by
    rw [hcol]
    exact groupFindingsBySimilarity_same_id "7" [sfD, sfE] (by simp)
      (by simp [sfD, sfE, findingD, findingE])
  have hag : calculateAgreementScore [sfD, sfE] = 9/10 := by
    rw [calculateAgreementScore_pair sfD sfE (1/2) (3/5) rfl rfl (by norm_num)]
    rw [show (1 : ℚ) - (3/5 - 1/2) = 9/10 by norm_num,
      max_eq_right (by norm_num : (0 : ℚ) ≤ 9/10)]
  refine ⟨?_, rfl, by norm_num, by norm_num⟩
  simp only [buildConsensus, hgroup]
  simp only [List.map_cons, List.map_nil, List.filterMap_cons, List.filterMap_nil,
    mergeFindingGroup, Except.map, hag]

/-- Merging singleton groups yields, member by member, an agreement score
equal to the member's own confidence. -/
theorem merged_singletons_scores (l : List SFinding) :
    (((l.map fun x => (x.id, [x])).map (·.2)).filterMap mergeFindingGroup).map
      (·.agreementScore) = l.map (·.confidence) := by
  induction l with
  | nil => rfl
  | cons s l ih =>
    simp only [List.map_cons, List.filterMap_cons, mergeFindingGroup,
      calculateAgreementScore, ih]

/-- Claim C8 (amended): for a single-response list whose findings have
pairwise-distinct ids and are pairwise non-similar (so every merge group
is a singleton), each merged finding's agreement score equals its unique
contributing finding's confidence. -/
theorem c8_singleton_agreement (resp : AgentResponse)
    (hp : List.Pairwise
      (fun a b => a.id ≠ b.id ∧ findingsSimilar b a = false) resp.findings) :
    (buildConsensus [resp]).map (fun mfs => mfs.map (·.agreementScore))
      = .ok (resp.findings.map (·.confidence)) := by
  have hcol : collectAllFindings [resp]
      = resp.findings.map (fun f => ⟨f, resp.modelName⟩) := by
    simp [collectAllFindings]
  have hp2 : List.Pairwise
      (fun (a b : SFinding) =>
        a.id ≠ b.id ∧ findingsSimilar b.toFinding a.toFinding = false)
      (resp.findings.map (fun f => ⟨f, resp.modelName⟩)) :=
    List.pairwise_map.mpr hp
  have hgroup := groupFindingsBySimilarity_pairwise _ hp2
  simp only [buildConsensus, hcol, hgroup, Except.map]
  rw [merged_singletons_scores, List.map_map]
  rfl

/-- Witness for C8 (amended): a response with two distinct, non-similar
findings (confidences 2/5 and 7/10) gives exactly those agreement scores. -/
theorem c8_singleton_agreement_witness :
    (buildConsensus [respDistinct]).map (fun mfs => mfs.map (·.agreementScore))
      = .ok [2/5, 7/10] :=
  c8_singleton_agreement respDistinct (by decide)

/-- First-occurrence deduplication of three distinct strings. -/
theorem dedupFirst_three (a1 a2 a3 : String) (h12 : a1 ≠ a2) (h13 : a1 ≠ a3)
    (h23 : a2 ≠ a3) : dedupFirst [a1, a2, a3] = [a1, a2, a3] := by
  simp [dedupFirst, dedupFirstAux, Ne.symm h12, Ne.symm h13, Ne.symm h23]

/-- A group of three findings from three distinct sources is unanimous. -/
theorem determineConsensusLevel_three : determineConsensusLevel 3 3 = .unanimous := by
  have h100 : ((3 : ℕ) : ℚ) / ((3 : ℕ) : ℚ) * 100 = 100 := by norm_num
  simp [determineConsensusLevel, h100]

/-- A three-member group with one shared confidence has zero deviation and
agreement score exactly 1. -/
theorem calculateAgreementScore_three_eq (s1 s2 s3 : SFinding) (c : ℚ)
    (h1 : s1.confidence = c) (h2 : s2.confidence = c) (h3 : s3.confidence = c) :
    calculateAgreementScore [s1, s2, s3] = 1 := by
  simp only [calculateAgreementScore, calcScoreMulti, List.map_cons, List.map_nil,
    List.sum_cons, List.sum_nil, List.length_cons, List.length_nil, h1, h2, h3,
    Nat.cast_ofNat, Nat.zero_add, Nat.reduceAdd]
  have hv : ((c - (c + (c + (c + 0))) / (3 : ℚ)) * (c - (c + (c + (c + 0))) / (3 : ℚ)) +
        ((c - (c + (c + (c + 0))) / (3 : ℚ)) * (c - (c + (c + (c + 0))) / (3 : ℚ)) +
          ((c - (c + (c + (c + 0))) / (3 : ℚ)) * (c - (c + (c + (c + 0))) / (3 : ℚ)) +
            0))) / (3 : ℚ)
      = (0 : ℚ) * 0 := by
    ring
  rw [hv, ratSqrt_mul_self 0 le_rfl]
  norm_num

/-- Claim C9: merging three responses from three distinct agents whose
findings carry one shared id (and, as in the spec's identical-findings
scenario, one shared confidence) yields a single merged finding with
`consensusLevel = unanimous` (all three distinct sources contribute) and
`agreementScore = 1` (the exact value of "approximately 1.0": the shared
confidence has zero deviation). -/
theorem c9_unanimous (a1 a2 a3 : String) (f1 f2 f3 : Finding) (c : ℚ)
    (h12 : a1 ≠ a2) (h13 : a1 ≠ a3) (h23 : a2 ≠ a3)
    (hid2 : f2.id = f1.id) (hid3 : f3.id = f1.id)
    (hc1 : f1.confidence = c) (hc2 : f2.confidence = c) (hc3 : f3.confidence = c) :
    ∃ mf, buildConsensus [⟨a1, [f1]⟩, ⟨a2, [f2]⟩, ⟨a3, [f3]⟩] = .ok [mf] ∧
      mf.sources = [a1, a2, a3] ∧
      mf.consensusLevel = ConsensusLevel.unanimous ∧
      mf.agreementScore = 1 := by
  have hgroup : groupFindingsBySimilarity
      (collectAllFindings [⟨a1, [f1]⟩, ⟨a2, [f2]⟩, ⟨a3, [f3]⟩])
      = [(f1.id, [⟨f1, a1⟩, ⟨f2, a2⟩, ⟨f3, a3⟩])] := by
    rw [show collectAllFindings [⟨a1, [f1]⟩, ⟨a2, [f2]⟩, ⟨a3, [f3]⟩]
        = [⟨f1, a1⟩, ⟨f2, a2⟩, ⟨f3, a3⟩] from rfl]
    refine groupFindingsBySimilarity_same_id f1.id _ (by simp) ?_
    intro f hf
    simp only [List.mem_cons, List.not_mem_nil, or_false] at hf
    rcases hf with rfl | rfl | rfl
    · rfl
    · exact hid2
    · exact hid3
  have hsrc : dedupFirst [a1, a2, a3] = [a1, a2, a3] :=
    dedupFirst_three a1 a2 a3 h12 h13 h23
  have hag : calculateAgreementScore [⟨f1, a1⟩, ⟨f2, a2⟩, ⟨f3, a3⟩] = 1 :=
    calculateAgreementScore_three_eq _ _ _ c hc1 hc2 hc3
  simp only [buildConsensus, hgroup, List.map_cons, List.map_nil,
    List.filterMap_cons, List.filterMap_nil, mergeFindingGroup, Except.map]
  refine ⟨_, rfl, ?_, ?_, ?_⟩
  · simpa using hsrc
  · simp only [List.map_cons, List.map_nil]
    rw [show List.length [(⟨f1, a1⟩ : SFinding), ⟨f2, a2⟩, ⟨f3, a3⟩] = 3 from rfl]
    rw [show dedupFirst [(⟨f1, a1⟩ : SFinding).sourceModel,
        (⟨f2, a2⟩ : SFinding).sourceModel, (⟨f3, a3⟩ : SFinding).sourceModel]
      = dedupFirst [a1, a2, a3] from rfl]
    rw [hsrc]
    exact determineConsensusLevel_three
  · exact hag

/-- Witness for C9: the three concrete responses sharing finding id `"u"`
and confidence 4/5 from three distinct models. -/
theorem c9_unanimous_witness :
    ∃ mf, buildConsensus [⟨"model-1", [findingU1]⟩, ⟨"model-2", [findingU2]⟩,
        ⟨"model-3", [findingU3]⟩] = .ok [mf] ∧
      mf.sources = ["model-1", "model-2", "model-3"] ∧
      mf.consensusLevel = ConsensusLevel.unanimous ∧
      mf.agreementScore = 1 :=
  c9_unanimous "model-1" "model-2" "model-3" findingU1 findingU2 findingU3 (4/5)
    (by decide) (by decide) (by decide) rfl rfl rfl rfl rfl

end CodeForge
